import Mathlib

/-!
Shallow embedding of the `commit-message-builder` VS Code extension sources
(`src/commitBuilder.ts`, `src/schemaManager.ts`, `src/messageHandler.ts`)
and proofs about the behaviour its specification describes.

JavaScript strings are modelled by `String`, with `jsTrim` and `jsToLower`
(defined below over the character list) standing for `String.prototype.trim`
and `String.prototype.toLowerCase`.
JSON values (in particular anything produced by `JSON.parse` or received
from the webview) are modelled by the inductive `Json`; JavaScript
`undefined` is modelled by `Option Json` at the points where a property
access can miss.  Thrown exceptions are modelled explicitly: a computation
that the source wraps in `try`/`catch` is embedded as a total function that
returns what the `catch` handler produces on the throwing paths.
-/

/-- Model of the JavaScript values relevant here (the image of `JSON.parse`
and of structured-clone messages from the webview). -/
inductive Json where
  | null
  | bool (b : Bool)
  | num (n : Int)
  | str (s : String)
  | arr (elems : List Json)
  | obj (fields : List (String × Json))

/-- JavaScript truthiness of a `Json` value (`if (x)`). -/
def jsTruthy : Json → Bool
  | Json.null => false
  | Json.bool b => b
  | Json.num n => n != 0
  | Json.str s => s != ""
  | Json.arr _ => true
  | Json.obj _ => true

/-- `typeof x === 'object'` for a `Json` value: true for `null`, arrays and
plain objects, false for booleans, numbers and strings. -/
def isObject : Json → Bool
  | Json.null => true
  | Json.arr _ => true
  | Json.obj _ => true
  | _ => false

/-- Lookup of a key in a JavaScript object's field list; a later duplicate
key overwrites an earlier one, as in `JSON.parse`. -/
def lookupLast (fields : List (String × Json)) (key : String) : Option Json :=
  match fields with
  | [] => none
  | (k, v) :: rest =>
    match lookupLast rest key with
    | some r => some r
    | none => if k = key then some v else none

/-- JavaScript property access `x[key]`: `some` the value on an object that
has the key, `none` (i.e. `undefined`) otherwise. -/
def getField : Json → String → Option Json
  | Json.obj fields, key => lookupLast fields key
  | _, _ => none

/-! ## JavaScript string primitives

`String.prototype.trim` removes the ECMAScript WhiteSpace and LineTerminator
code points from both ends; `String.prototype.toLowerCase` is modelled on the
ASCII range (the only range the sources rely on). -/

/-- The ECMAScript WhiteSpace ∪ LineTerminator set used by `trim`. -/
def jsWhitespaceChar (c : Char) : Bool :=
  c = '\t' || c = '\n' || c = '\u000B' || c = '\u000C' || c = '\r' || c = ' ' ||
  c = '\u00A0' || c = '\u1680' || ('\u2000' ≤ c && c ≤ '\u200A') ||
  c = '\u2028' || c = '\u2029' || c = '\u202F' || c = '\u205F' ||
  c = '\u3000' || c = '\uFEFF'

/-- Drop the leading characters satisfying `p`. -/
def dropLeading (p : Char → Bool) : List Char → List Char
  | [] => []
  | c :: cs => if p c then dropLeading p cs else c :: cs

/-- `String.prototype.trim`: strip JS whitespace from both ends. -/
def jsTrim (s : String) : String :=
  ⟨(dropLeading jsWhitespaceChar
      (dropLeading jsWhitespaceChar s.data).reverse).reverse⟩

/-- `String.prototype.toLowerCase` (ASCII case mapping). -/
def jsToLower (s : String) : String :=
  ⟨s.data.map Char.toLower⟩

/-! ## `src/commitBuilder.ts` -/

/-- `FormData` from `src/commitBuilder.ts`: the four form fields. -/
structure FormData where
  type : String
  scope : String
  subject : String
  body : String

/-- `CommitBuilder.formatHeader`: trim and lowercase the type, trim scope and
subject, and put the scope in parentheses when it is (truthy, i.e.) non-empty. -/
def formatHeader (type scope subject : String) : String :=
  let cleanType := jsToLower (jsTrim type)
  let cleanScope := jsTrim scope
  let cleanSubject := jsTrim subject
  if cleanScope != "" then
    cleanType ++ "(" ++ cleanScope ++ "): " ++ cleanSubject
  else
    cleanType ++ ": " ++ cleanSubject

/-- `CommitBuilder.formatBody`: trim the whole body, preserving its interior. -/
def formatBody (body : String) : String :=
  jsTrim body

/-- `CommitBuilder.buildCommitMessage`: header, then a blank-line separator
and the trimmed body when `formData.body && formData.body.trim()` is truthy. -/
def buildCommitMessage (formData : FormData) : String :=
  let header := formatHeader formData.type formData.scope formData.subject
  if formData.body != "" && jsTrim formData.body != "" then
    header ++ "\n\n" ++ formatBody formData.body
  else
    header

example : buildCommitMessage ⟨"feat", "auth", "tambah login", ""⟩ = "feat(auth): tambah login" := rfl
example : buildCommitMessage ⟨"FIX", "", "perbaiki bug", ""⟩ = "fix: perbaiki bug" := rfl
example : buildCommitMessage ⟨"feat", "", "s", "line1\nline2\n"⟩ = "feat: s\n\nline1\nline2" := rfl

/-! ## `src/schemaManager.ts`

`loadSchema` probes a workspace-level config file and an extension-level
config file.  The external file system is modelled by `FsState`: whether a
workspace is open, and the state of each of the two candidate files.  A
candidate file either does not exist, exists but `readFileSync` throws,
exists but `JSON.parse` throws, or parses to a `Json` value.  `loadSchema`
returns the resulting catalog together with the list of files whose
`readFileSync` was invoked, in order. -/

/-- State of one candidate config file. -/
inductive FileState where
  | absent
  | readErr
  | badJson
  | parsesTo (j : Json)

/-- The file-system state `loadSchema` runs against. -/
structure FsState where
  hasWorkspace : Bool
  workspaceFile : FileState
  extensionFile : FileState

/-- The two files `loadSchema` can read. -/
inductive ReadTarget where
  | workspaceConfig
  | extensionConfig
deriving DecidableEq

/-- `SchemaManager.validateSchema` on one element of the `types` array:
the element must be a truthy object whose `id` and `label` are truthy
strings. -/
def validCommitType (t : Json) : Bool :=
  jsTruthy t && isObject t &&
  (match getField t "id" with
   | some (Json.str s) => s != ""
   | _ => false) &&
  (match getField t "label" with
   | some (Json.str s) => s != ""
   | _ => false)

/-- `SchemaManager.validateSchema`: the value must be a truthy object whose
`types` property is an array all of whose elements pass `validCommitType`. -/
def validateSchema (schema : Json) : Bool :=
  jsTruthy schema && isObject schema &&
  (match getField schema "types" with
   | some (Json.arr types) => types.all validCommitType
   | _ => false)

/-- `SchemaManager.getDefaultSchema`: the hardcoded 7-entry catalog. -/
def getDefaultSchema : Json :=
  Json.obj [("types", Json.arr [
    Json.obj [("id", Json.str "feat"), ("label", Json.str "✨ Fitur Baru")],
    Json.obj [("id", Json.str "fix"), ("label", Json.str "🐛 Perbaikan Bug")],
    Json.obj [("id", Json.str "docs"), ("label", Json.str "📝 Dokumentasi")],
    Json.obj [("id", Json.str "style"), ("label", Json.str "💄 Styling")],
    Json.obj [("id", Json.str "refactor"), ("label", Json.str "♻️ Refactoring")],
    Json.obj [("id", Json.str "test"), ("label", Json.str "✅ Testing")],
    Json.obj [("id", Json.str "chore"), ("label", Json.str "🔧 Chore")]])]

/-- The part of `loadSchema` after the workspace candidate has fallen
through without throwing: probe the extension-resources candidate, else the
default.  A throw inside the `try` block lands in the `catch`, which also
returns the default. -/
def tryExtensionFile (reads : List ReadTarget) (fs : FsState) :
    Json × List ReadTarget :=
  match fs.extensionFile with
  | FileState.absent => (getDefaultSchema, reads)
  | FileState.readErr => (getDefaultSchema, reads ++ [ReadTarget.extensionConfig])
  | FileState.badJson => (getDefaultSchema, reads ++ [ReadTarget.extensionConfig])
  | FileState.parsesTo j =>
    if validateSchema j then (j, reads ++ [ReadTarget.extensionConfig])
    else (getDefaultSchema, reads ++ [ReadTarget.extensionConfig])

/-- `SchemaManager.loadSchema`.  The whole cascade sits in a single
`try`/`catch`: a missing file or a failed validation falls through to the
next candidate, but a `readFileSync` or `JSON.parse` exception jumps
straight to the `catch`, which returns the default catalog. -/
def loadSchema (fs : FsState) : Json × List ReadTarget :=
  if fs.hasWorkspace then
    match fs.workspaceFile with
    | FileState.absent => tryExtensionFile [] fs
    | FileState.readErr => (getDefaultSchema, [ReadTarget.workspaceConfig])
    | FileState.badJson => (getDefaultSchema, [ReadTarget.workspaceConfig])
    | FileState.parsesTo j =>
      if validateSchema j then (j, [ReadTarget.workspaceConfig])
      else tryExtensionFile [ReadTarget.workspaceConfig] fs
  else
    tryExtensionFile [] fs

/-- Whether a candidate file would supply a valid catalog (exists, parses,
and passes validation). -/
def fileYieldsValid : FileState → Bool
  | FileState.parsesTo j => validateSchema j
  | _ => false

/-- The `id` fields of a catalog's `types` entries, in order. -/
def catalogIds (schema : Json) : List String :=
  match getField schema "types" with
  | some (Json.arr types) =>
    types.filterMap (fun t =>
      match getField t "id" with
      | some (Json.str s) => some s
      | _ => none)
  | _ => []

example : catalogIds getDefaultSchema =
    ["feat", "fix", "docs", "style", "refactor", "test", "chore"] := rfl
example : validateSchema getDefaultSchema = true := rfl

/-! ## `src/messageHandler.ts`

The handler's observable effects are the messages posted back to the
webview and the number of `commitBuilder.buildCommitMessage` invocations.
Incoming data from the webview is a `Json` value, or `none` for
JavaScript `undefined`/`null`-like absence of `message.data`. -/

/-- A message the handler sends to the webview (`sendToWebview`). -/
inductive SentMessage where
  | schemaData (schema : Json)
  | commitResult (message : String)
  | errorMsg (text : String)

/-- Outcome of `if (!field || !field.trim())` on one required form field:
the field can fail the check (falsy or whitespace-only string), pass it,
or make the expression throw (`.trim` on a truthy non-string). -/
inductive FieldCheck where
  | invalid
  | throws
  | ok
deriving DecidableEq

/-- Evaluate `!field || !field.trim()` for a required field. -/
def checkRequired (field : Option Json) : FieldCheck :=
  match field with
  | none => FieldCheck.invalid
  | some j =>
    if !jsTruthy j then FieldCheck.invalid
    else
      match j with
      | Json.str s => if jsTrim s = "" then FieldCheck.invalid else FieldCheck.ok
      | _ => FieldCheck.throws

/-- `CommitBuilder.buildCommitMessage` invoked on the raw payload object,
as `handleSubmitForm` does after its own validation: field accesses go
through the dynamic object, and `.trim()` on a missing or non-string
`type`/`scope`/`subject` — or on a truthy non-string `body` — throws
(`none` result). -/
def buildCommitMessageDyn (data : Json) : Option String :=
  match getField data "type", getField data "scope", getField data "subject" with
  | some (Json.str t), some (Json.str sc), some (Json.str su) =>
    let header := formatHeader t sc su
    (match getField data "body" with
     | none => some header
     | some b =>
       if !jsTruthy b then some header
       else
         match b with
         | Json.str s =>
           some (if jsTrim s != "" then header ++ "\n\n" ++ formatBody s else header)
         | _ => none)
  | _, _, _ => none

/-- `MessageHandler.handleSubmitForm`: validate the payload and the two
required fields, then call the builder; a throw anywhere is caught and
reported as an error message.  Returns the messages sent to the webview and
the number of builder invocations. -/
def handleSubmitForm (data : Option Json) : List SentMessage × Nat :=
  match data with
  | none => ([SentMessage.errorMsg "Data form tidak valid"], 0)
  | some d =>
    if !jsTruthy d || !isObject d then
      ([SentMessage.errorMsg "Data form tidak valid"], 0)
    else
      match checkRequired (getField d "type") with
      | FieldCheck.invalid => ([SentMessage.errorMsg "Type commit harus diisi"], 0)
      | FieldCheck.throws => ([SentMessage.errorMsg "Gagal membuat commit message"], 0)
      | FieldCheck.ok =>
        match checkRequired (getField d "subject") with
        | FieldCheck.invalid => ([SentMessage.errorMsg "Subject commit harus diisi"], 0)
        | FieldCheck.throws => ([SentMessage.errorMsg "Gagal membuat commit message"], 0)
        | FieldCheck.ok =>
          match buildCommitMessageDyn d with
          | some msg => ([SentMessage.commitResult msg], 1)
          | none => ([SentMessage.errorMsg "Gagal membuat commit message"], 1)

/-- `MessageHandler.handleLoadSchema` (also reached from
`handleWebviewReady`): load the schema and post it as `schemaData`. -/
def handleLoadSchema (fs : FsState) : List SentMessage :=
  [SentMessage.schemaData (loadSchema fs).1]

/-- `MessageHandler.handleMessage`: validate the envelope
(`!message || typeof message !== 'object' || !message.command`), then switch
on the command; an unknown command only logs a warning.  The incoming
message is a `Json` value or `none` for a null/undefined message. -/
def handleMessage (fs : FsState) (message : Option Json) : List SentMessage :=
  match message with
  | none => [SentMessage.errorMsg "Format message tidak valid"]
  | some m =>
    if !jsTruthy m || !isObject m then
      [SentMessage.errorMsg "Format message tidak valid"]
    else
      match getField m "command" with
      | none => [SentMessage.errorMsg "Format message tidak valid"]
      | some c =>
        if !jsTruthy c then
          [SentMessage.errorMsg "Format message tidak valid"]
        else
          match c with
          | Json.str s =>
            if s = "webviewReady" then handleLoadSchema fs
            else if s = "loadSchema" then handleLoadSchema fs
            else if s = "submitForm" then (handleSubmitForm (getField m "data")).1
            else []
          | _ => []

/-! ## Helper lemmas -/

/-- Trimming the empty string yields the empty string. -/
theorem jsTrim_empty : jsTrim "" = "" := rfl

/-- Lowercasing the empty string yields the empty string. -/
theorem jsToLower_empty : jsToLower "" = "" := rfl

/-- Prepending the empty string is the identity. -/
theorem string_empty_append (s : String) : "" ++ s = s := rfl

/-! ## Claims about the formatter -/

/-- C1: the header is the trimmed lowercased type, the trimmed scope in
parentheses when the trimmed scope is non-empty, a colon-space, and the
trimmed subject; and when scope and body are empty the whole output is the
lowercased trimmed type, ": ", and the trimmed subject. -/
theorem formatHeader_spec (fd : FormData) :
    (formatHeader fd.type fd.scope fd.subject =
      if jsTrim fd.scope != "" then
        jsToLower (jsTrim fd.type) ++ "(" ++ jsTrim fd.scope ++ "): " ++ jsTrim fd.subject
      else
        jsToLower (jsTrim fd.type) ++ ": " ++ jsTrim fd.subject) ∧
    (jsTrim fd.type ≠ "" → jsTrim fd.subject ≠ "" → fd.scope = "" → fd.body = "" →
      buildCommitMessage fd =
        jsToLower (jsTrim fd.type) ++ ": " ++ jsTrim fd.subject) := by
  constructor
  · rfl
  · intro _ _ hscope hbody
    cases fd with
    | mk t sc su bo =>
      simp only at hscope hbody
      subst hscope hbody
      simp [buildCommitMessage, formatHeader, jsTrim_empty]

/-- Witness for C1 at a concrete input. -/
theorem formatHeader_spec_witness :
    buildCommitMessage ⟨"Feat", "", "add login", ""⟩ =
      jsToLower (jsTrim "Feat") ++ ": " ++ jsTrim "add login" :=
  (formatHeader_spec ⟨"Feat", "", "add login", ""⟩).2
    (by decide) (by decide) rfl rfl

/-- C2: with a body whose trim is non-empty, the output is the header, one
blank-line separator `"\n\n"`, and the body trimmed only at its two ends
(its interior, line breaks included, appears verbatim); with a body that
trims to empty, the output is the header alone. -/
theorem buildCommitMessage_body_spec (fd : FormData) :
    (jsTrim fd.body ≠ "" →
      buildCommitMessage fd =
        formatHeader fd.type fd.scope fd.subject ++ "\n\n" ++ jsTrim fd.body) ∧
    (jsTrim fd.body = "" →
      buildCommitMessage fd = formatHeader fd.type fd.scope fd.subject) := by
  constructor
  · intro h
    have hbody : fd.body ≠ "" := by
      intro he
      rw [he, jsTrim_empty] at h
      exact h rfl
    simp [buildCommitMessage, formatBody, h, hbody]
  · intro h
    simp [buildCommitMessage, formatBody, h]

/-- Witness for C2 at a concrete input with a multi-line body. -/
theorem buildCommitMessage_body_spec_witness :
    buildCommitMessage ⟨"fix", "ui", "align", " - a\n - b\n"⟩ =
      formatHeader "fix" "ui" "align" ++ "\n\n" ++ jsTrim " - a\n - b\n" :=
  (buildCommitMessage_body_spec ⟨"fix", "ui", "align", " - a\n - b\n"⟩).1
    (by decide)

/-- C6: the formatter has no validation or error branch; on empty `type` and
`scope` with a non-empty trimmed subject it returns the malformed header
`": subject"` rather than failing. -/
theorem buildCommitMessage_empty_required (subject body : String)
    (_h : jsTrim subject ≠ "") :
    buildCommitMessage ⟨"", "", subject, body⟩ =
      if jsTrim body != "" then
        ": " ++ jsTrim subject ++ "\n\n" ++ jsTrim body
      else
        ": " ++ jsTrim subject := by
  by_cases hb : jsTrim body = ""
  · simp [buildCommitMessage, formatHeader, formatBody, hb, jsTrim_empty, jsToLower_empty]
  · have hbody : body ≠ "" := by
      intro he
      rw [he, jsTrim_empty] at hb
      exact hb rfl
    simp [buildCommitMessage, formatHeader, formatBody, hb, hbody, jsTrim_empty,
      jsToLower_empty]

/-- Witness for C6: empty type and scope yield `": subject"`. -/
theorem buildCommitMessage_empty_required_witness :
    buildCommitMessage ⟨"", "", "subject", ""⟩ =
      if jsTrim "" != "" then
        ": " ++ jsTrim "subject" ++ "\n\n" ++ jsTrim ""
      else
        ": " ++ jsTrim "subject" :=
  buildCommitMessage_empty_required "subject" "" (by decide)

/-- C7: the formatter is deterministic and pure — the output depends only on
the four field values, so two calls on identical inputs agree. -/
theorem buildCommitMessage_deterministic (fd fd' : FormData)
    (h : fd.type = fd'.type ∧ fd.scope = fd'.scope ∧
         fd.subject = fd'.subject ∧ fd.body = fd'.body) :
    buildCommitMessage fd = buildCommitMessage fd' := by
  obtain ⟨h1, h2, h3, h4⟩ := h
  cases fd
  cases fd'
  simp only at h1 h2 h3 h4
  subst h1 h2 h3 h4
  rfl

/-- Witness for C7 at a concrete pair of identical inputs. -/
theorem buildCommitMessage_deterministic_witness :
    buildCommitMessage ⟨"feat", "api", "x", "y"⟩ =
      buildCommitMessage ⟨"feat", "api", "x", "y"⟩ :=
  buildCommitMessage_deterministic ⟨"feat", "api", "x", "y"⟩
    ⟨"feat", "api", "x", "y"⟩ ⟨rfl, rfl, rfl, rfl⟩

/-! ## Claims about config resolution -/

/-- A minimal valid catalog used as concrete test data. -/
def sampleCatalog : Json :=
  Json.obj [("types", Json.arr [
    Json.obj [("id", Json.str "feat"), ("label", Json.str "Feature")]])]

/-- A second valid catalog, distinct from `sampleCatalog`. -/
def otherCatalog : Json :=
  Json.obj [("types", Json.arr [
    Json.obj [("id", Json.str "fix"), ("label", Json.str "Fix")]])]

/-- If the extension candidate yields no valid catalog, the tail of the
cascade returns the default. -/
theorem tryExtensionFile_default (reads : List ReadTarget) (fs : FsState)
    (h : fileYieldsValid fs.extensionFile = false) :
    (tryExtensionFile reads fs).1 = getDefaultSchema := by
  cases he : fs.extensionFile with
  | absent => simp [tryExtensionFile, he]
  | readErr => simp [tryExtensionFile, he]
  | badJson => simp [tryExtensionFile, he]
  | parsesTo j =>
    rw [he] at h
    simp only [fileYieldsValid] at h
    simp [tryExtensionFile, he, h]

/-- C3 counterexample: with malformed JSON in the first candidate and a
valid catalog in the second, `loadSchema` returns the default catalog, not
the second candidate's catalog — the parse exception jumps over the second
candidate. -/
theorem loadSchema_badJson_counterexample :
    validateSchema sampleCatalog = true ∧
    loadSchema ⟨true, FileState.badJson, FileState.parsesTo sampleCatalog⟩ =
      (getDefaultSchema, [ReadTarget.workspaceConfig]) ∧
    getDefaultSchema ≠ sampleCatalog := by
  refine ⟨rfl, rfl, fun h => ?_⟩
  have h2 := congrArg catalogIds h
  revert h2
  decide

/-- C3 amended: a `JSON.parse` failure on the first candidate is still not
propagated to the caller, but it aborts the cascade — the result is the
default catalog, whatever the second candidate holds. -/
theorem loadSchema_badJson_amended (fs : FsState)
    (h1 : fs.hasWorkspace = true) (h2 : fs.workspaceFile = FileState.badJson) :
    (loadSchema fs).1 = getDefaultSchema := by
  simp [loadSchema, h1, h2]

/-- Witness for the amended C3. -/
theorem loadSchema_badJson_amended_witness :
    (loadSchema ⟨true, FileState.badJson, FileState.parsesTo sampleCatalog⟩).1 =
      getDefaultSchema :=
  loadSchema_badJson_amended ⟨true, FileState.badJson, FileState.parsesTo sampleCatalog⟩
    rfl rfl

/-- C4: when the workspace candidate exists, parses, and validates, its
catalog is returned verbatim and only the workspace file is ever read — the
extension candidate's read is not invoked. -/
theorem loadSchema_shortCircuit (fs : FsState) (j : Json)
    (h1 : fs.hasWorkspace = true) (h2 : fs.workspaceFile = FileState.parsesTo j)
    (h3 : validateSchema j = true) :
    loadSchema fs = (j, [ReadTarget.workspaceConfig]) ∧
    ReadTarget.extensionConfig ∉ (loadSchema fs).2 := by
  have he : loadSchema fs = (j, [ReadTarget.workspaceConfig]) := by
    simp [loadSchema, h1, h2, h3]
  refine ⟨he, ?_⟩
  rw [he]
  show ReadTarget.extensionConfig ∉ [ReadTarget.workspaceConfig]
  decide

/-- Witness for C4: a valid workspace catalog short-circuits past a distinct
extension catalog. -/
theorem loadSchema_shortCircuit_witness :
    loadSchema ⟨true, FileState.parsesTo sampleCatalog, FileState.parsesTo otherCatalog⟩ =
      (sampleCatalog, [ReadTarget.workspaceConfig]) ∧
    ReadTarget.extensionConfig ∉
      (loadSchema ⟨true, FileState.parsesTo sampleCatalog,
        FileState.parsesTo otherCatalog⟩).2 :=
  loadSchema_shortCircuit
    ⟨true, FileState.parsesTo sampleCatalog, FileState.parsesTo otherCatalog⟩
    sampleCatalog rfl rfl rfl

/-- C5: whenever no candidate yields a valid catalog — missing workspace,
missing file, read error, malformed JSON, or failed validation — the result
is the hardcoded default catalog, a usable (self-validating) catalog of
exactly the 7 ids feat, fix, docs, style, refactor, test, chore, and no
exception reaches the caller. -/
theorem loadSchema_total_default (fs : FsState)
    (h1 : fs.hasWorkspace = false ∨ fileYieldsValid fs.workspaceFile = false)
    (h2 : fileYieldsValid fs.extensionFile = false) :
    (loadSchema fs).1 = getDefaultSchema ∧
    catalogIds (loadSchema fs).1 =
      ["feat", "fix", "docs", "style", "refactor", "test", "chore"] ∧
    (catalogIds (loadSchema fs).1).length = 7 ∧
    validateSchema (loadSchema fs).1 = true := by
  have hd : (loadSchema fs).1 = getDefaultSchema := by
    cases hw : fs.hasWorkspace with
    | false =>
      simp only [loadSchema, hw, Bool.false_eq_true, if_false]
      exact tryExtensionFile_default [] fs h2
    | true =>
      have h1' : fileYieldsValid fs.workspaceFile = false := by
        rcases h1 with h | h
        · rw [hw] at h; exact absurd h (by simp)
        · exact h
      cases hwf : fs.workspaceFile with
      | absent =>
        simp only [loadSchema, hw, if_true, hwf]
        exact tryExtensionFile_default [] fs h2
      | readErr => simp [loadSchema, hw, hwf]
      | badJson => simp [loadSchema, hw, hwf]
      | parsesTo j =>
        rw [hwf] at h1'
        simp only [fileYieldsValid] at h1'
        simp only [loadSchema, hw, if_true, hwf, h1', Bool.false_eq_true, if_false]
        exact tryExtensionFile_default [ReadTarget.workspaceConfig] fs h2
  rw [hd]
  exact ⟨rfl, rfl, rfl, rfl⟩

/-- Witness for C5: workspace file malformed, extension file absent. -/
theorem loadSchema_total_default_witness :
    (loadSchema ⟨true, FileState.badJson, FileState.absent⟩).1 = getDefaultSchema ∧
    catalogIds (loadSchema ⟨true, FileState.badJson, FileState.absent⟩).1 =
      ["feat", "fix", "docs", "style", "refactor", "test", "chore"] ∧
    (catalogIds (loadSchema ⟨true, FileState.badJson, FileState.absent⟩).1).length = 7 ∧
    validateSchema (loadSchema ⟨true, FileState.badJson, FileState.absent⟩).1 = true :=
  loadSchema_total_default ⟨true, FileState.badJson, FileState.absent⟩
    (Or.inr rfl) rfl

/-- The catalog with an empty `types` array, `{"types": []}`. -/
def emptyTypesCatalog : Json := Json.obj [("types", Json.arr [])]

/-- C8: `validateSchema` accepts `{"types": []}`, so a candidate file with
an empty types list is returned as the resolved catalog — with zero
selectable ids — instead of falling through to the next candidate or the
default. -/
theorem validateSchema_acceptsEmptyTypes :
    validateSchema emptyTypesCatalog = true ∧
    loadSchema ⟨true, FileState.parsesTo emptyTypesCatalog,
        FileState.parsesTo sampleCatalog⟩ =
      (emptyTypesCatalog, [ReadTarget.workspaceConfig]) ∧
    catalogIds emptyTypesCatalog = [] :=
  ⟨rfl, rfl, rfl⟩

/-! ## Claims about the message handler -/

/-- A required form field counts as missing when it is absent or is a
string that trims to empty. -/
def requiredFieldMissing (j : Json) (key : String) : Prop :=
  getField j key = none ∨
  ∃ s, getField j key = some (Json.str s) ∧ jsTrim s = ""

/-- `formData.body` can be consumed by the builder without throwing: it is
absent, a string, or a falsy value. -/
def bodySafe : Option Json → Bool
  | none => true
  | some (Json.str _) => true
  | some b => !jsTruthy b

/-- A value with a readable field is a (truthy) object. -/
theorem getField_some_obj (j : Json) (k : String) (v : Json)
    (h : getField j k = some v) : jsTruthy j = true ∧ isObject j = true := by
  cases j with
  | obj fields => exact ⟨rfl, rfl⟩
  | null => simp [getField] at h
  | bool b => simp [getField] at h
  | num n => simp [getField] at h
  | str s => simp [getField] at h
  | arr xs => simp [getField] at h

/-- A missing required field fails the handler's `!field || !field.trim()`
check. -/
theorem checkRequired_invalid_of_missing (f : Option Json)
    (h : f = none ∨ ∃ s, f = some (Json.str s) ∧ jsTrim s = "") :
    checkRequired f = FieldCheck.invalid := by
  rcases h with h | ⟨s, h, hs⟩
  · rw [h]; rfl
  · rw [h]
    by_cases he : s = ""
    · subst he; rfl
    · simp [checkRequired, jsTruthy, he, hs]

/-- A required string field with non-empty trim passes the handler's check. -/
theorem checkRequired_ok_of_present (f : Option Json) (s : String)
    (h : f = some (Json.str s)) (hs : jsTrim s ≠ "") :
    checkRequired f = FieldCheck.ok := by
  have hne : s ≠ "" := by
    intro he
    rw [he] at hs
    exact hs jsTrim_empty
  rw [h]
  simp [checkRequired, jsTruthy, hne, hs]

/-- With string `type`, `scope` and `subject` fields and a safe `body`, the
dynamically invoked builder returns a result instead of throwing. -/
theorem buildCommitMessageDyn_some (j : Json) (t sc su : String)
    (ht : getField j "type" = some (Json.str t))
    (hsc : getField j "scope" = some (Json.str sc))
    (hsu : getField j "subject" = some (Json.str su))
    (hb : bodySafe (getField j "body") = true) :
    ∃ m, buildCommitMessageDyn j = some m := by
  simp only [buildCommitMessageDyn, ht, hsc, hsu]
  cases hbf : getField j "body" with
  | none => exact ⟨_, rfl⟩
  | some b =>
    rw [hbf] at hb
    cases b with
    | str s =>
      by_cases hts : jsTrim s != ""
      · by_cases hs : jsTruthy (Json.str s)
        · simp [hs, hts]
        · simp [hs]
      · by_cases hs : jsTruthy (Json.str s)
        · simp [hs, hts]
        · simp [hs]
    | null => simp [jsTruthy]
    | bool b2 =>
      have hf : jsTruthy (Json.bool b2) = false := by
        simpa [bodySafe] using hb
      simp [hf]
    | num n =>
      have hf : jsTruthy (Json.num n) = false := by
        simpa [bodySafe] using hb
      simp [hf]
    | arr xs =>
      have hf : jsTruthy (Json.arr xs) = false := by
        simpa [bodySafe] using hb
      simp [hf]
    | obj fields =>
      have hf : jsTruthy (Json.obj fields) = false := by
        simpa [bodySafe] using hb
      simp [hf]

/-- C9 counterexample: a payload with non-empty trimmed `type` and `subject`
but no `scope` field makes the invoked builder throw (`.trim()` on
`undefined`), so the handler sends an error message, not a `commitResult`. -/
theorem handleSubmitForm_counterexample :
    handleSubmitForm (some (Json.obj
        [("type", Json.str "feat"), ("subject", Json.str "tambah login")])) =
      ([SentMessage.errorMsg "Gagal membuat commit message"], 1) := rfl

/-- C9 amended: a payload that is absent, falsy, or not an object, or whose
`type` or `subject` is absent or trims to empty, gets an error message and
never reaches the builder; a payload whose `type` and `subject` are strings
with non-empty trim, whose `scope` is a string, and whose `body` the builder
can consume without throwing, invokes the builder exactly once and gets its
result back as a `commitResult` message. -/
theorem handleSubmitForm_spec (d : Option Json) :
    (d = none ∨ (∃ j, d = some j ∧ (jsTruthy j = false ∨ isObject j = false)) →
      handleSubmitForm d = ([SentMessage.errorMsg "Data form tidak valid"], 0)) ∧
    (∀ j, d = some j → jsTruthy j = true → isObject j = true →
      requiredFieldMissing j "type" ∨ requiredFieldMissing j "subject" →
      (handleSubmitForm d).2 = 0 ∧
      ∃ e, (handleSubmitForm d).1 = [SentMessage.errorMsg e]) ∧
    (∀ j t su sc, d = some j →
      getField j "type" = some (Json.str t) → jsTrim t ≠ "" →
      getField j "subject" = some (Json.str su) → jsTrim su ≠ "" →
      getField j "scope" = some (Json.str sc) →
      bodySafe (getField j "body") = true →
      ∃ m, buildCommitMessageDyn j = some m ∧
        handleSubmitForm d = ([SentMessage.commitResult m], 1)) := by
  refine ⟨?_, ?_, ?_⟩
  · rintro (h | ⟨j, hj, hbad⟩)
    · rw [h]; rfl
    · subst hj
      rcases hbad with hb | hb
      · simp [handleSubmitForm, hb]
      · simp [handleSubmitForm, hb]
  · rintro j rfl htr hobj hmiss
    rcases hmiss with hm | hm
    · have hct := checkRequired_invalid_of_missing _ hm
      constructor
      · simp [handleSubmitForm, htr, hobj, hct]
      · exact ⟨"Type commit harus diisi",
          by simp [handleSubmitForm, htr, hobj, hct]⟩
    · cases hcase : checkRequired (getField j "type") with
      | invalid =>
        constructor
        · simp [handleSubmitForm, htr, hobj, hcase]
        · exact ⟨"Type commit harus diisi",
            by simp [handleSubmitForm, htr, hobj, hcase]⟩
      | throws =>
        constructor
        · simp [handleSubmitForm, htr, hobj, hcase]
        · exact ⟨"Gagal membuat commit message",
            by simp [handleSubmitForm, htr, hobj, hcase]⟩
      | ok =>
        have hcs := checkRequired_invalid_of_missing _ hm
        constructor
        · simp [handleSubmitForm, htr, hobj, hcase, hcs]
        · exact ⟨"Subject commit harus diisi",
            by simp [handleSubmitForm, htr, hobj, hcase, hcs]⟩
  · rintro j t su sc rfl ht htne hsu hsune hsc hbody
    obtain ⟨htr, hobj⟩ := getField_some_obj j "type" _ ht
    have hct := checkRequired_ok_of_present _ t ht htne
    have hcs := checkRequired_ok_of_present _ su hsu hsune
    obtain ⟨m, hm⟩ := buildCommitMessageDyn_some j t sc su ht hsc hsu hbody
    exact ⟨m, hm, by simp [handleSubmitForm, htr, hobj, hct, hcs, hm]⟩

/-- A well-formed submitForm payload used by the C9 witness. -/
def goodPayload : Json :=
  Json.obj [("type", Json.str "feat"), ("scope", Json.str "auth"),
    ("subject", Json.str "tambah login"), ("body", Json.str "")]

/-- Witness for the amended C9: the well-formed payload yields exactly one
builder invocation and a `commitResult`. -/
theorem handleSubmitForm_spec_witness :
    handleSubmitForm (some goodPayload) =
      ([SentMessage.commitResult "feat(auth): tambah login"], 1) := by
  obtain ⟨m, hm, he⟩ := (handleSubmitForm_spec (some goodPayload)).2.2
    goodPayload "feat" "tambah login" "auth" rfl rfl (by decide) rfl (by decide)
    rfl rfl
  have hcomp : buildCommitMessageDyn goodPayload =
      some "feat(auth): tambah login" := rfl
  rw [hcomp] at hm
  rw [← Option.some.inj hm] at he
  exact he

/-- C10 counterexample: a message whose `command` is the empty string — a
command that is none of the three known ones — does not pass silently: the
falsy-command validation sends an error message back. -/
theorem handleMessage_counterexample :
    handleMessage ⟨true, FileState.absent, FileState.absent⟩
        (some (Json.obj [("command", Json.str "")])) =
      [SentMessage.errorMsg "Format message tidak valid"] := rfl

/-- C10 amended: a null/absent message, a non-object message, or a message
whose `command` is absent or falsy (the empty string included) gets an
error message; a message whose `command` is present and truthy but none of
`webviewReady`, `loadSchema`, `submitForm` — an unknown command string, or
a truthy non-string — sends nothing back to the webview. -/
theorem handleMessage_routing (fs : FsState) (msg : Option Json) :
    (msg = none →
      handleMessage fs msg = [SentMessage.errorMsg "Format message tidak valid"]) ∧
    (∀ j, msg = some j → jsTruthy j = false ∨ isObject j = false →
      handleMessage fs msg = [SentMessage.errorMsg "Format message tidak valid"]) ∧
    (∀ j, msg = some j → jsTruthy j = true → isObject j = true →
      (getField j "command" = none ∨
        (∃ c, getField j "command" = some c ∧ jsTruthy c = false)) →
      handleMessage fs msg = [SentMessage.errorMsg "Format message tidak valid"]) ∧
    (∀ j s, msg = some j → getField j "command" = some (Json.str s) →
      s ≠ "" → s ≠ "webviewReady" → s ≠ "loadSchema" → s ≠ "submitForm" →
      handleMessage fs msg = []) ∧
    (∀ j c, msg = some j → getField j "command" = some c → jsTruthy c = true →
      (∀ s, c ≠ Json.str s) → handleMessage fs msg = []) := by
  refine ⟨?_, ?_, ?_, ?_, ?_⟩
  · intro h
    rw [h]
    rfl
  · rintro j rfl hbad
    rcases hbad with hb | hb
    · simp [handleMessage, hb]
    · simp [handleMessage, hb]
  · rintro j rfl htr hobj hcmd
    rcases hcmd with hc | ⟨c, hc, hcf⟩
    · simp [handleMessage, htr, hobj, hc]
    · simp [handleMessage, htr, hobj, hc, hcf]
  · rintro j s rfl hc hne h1 h2 h3
    obtain ⟨htr, hobj⟩ := getField_some_obj j "command" _ hc
    have hct : jsTruthy (Json.str s) = true := by simp [jsTruthy, hne]
    simp [handleMessage, htr, hobj, hc, hct, h1, h2, h3]
  · rintro j c rfl hc hct hns
    obtain ⟨htr, hobj⟩ := getField_some_obj j "command" _ hc
    cases c with
    | str s => exact absurd rfl (hns s)
    | null => simp [jsTruthy] at hct
    | bool b => simp [handleMessage, htr, hobj, hc, hct]
    | num n => simp [handleMessage, htr, hobj, hc, hct]
    | arr xs => simp [handleMessage, htr, hobj, hc, hct]
    | obj fields => simp [handleMessage, htr, hobj, hc, hct]

/-- Witness for the amended C10: an unknown string command sends nothing. -/
theorem handleMessage_routing_witness :
    handleMessage ⟨true, FileState.absent, FileState.absent⟩
        (some (Json.obj [("command", Json.str "copyToClipboard")])) = [] :=
  (handleMessage_routing ⟨true, FileState.absent, FileState.absent⟩
      (some (Json.obj [("command", Json.str "copyToClipboard")]))).2.2.2.1
    (Json.obj [("command", Json.str "copyToClipboard")]) "copyToClipboard"
    rfl rfl (by decide) (by decide) (by decide) (by decide)
